import Mathlib

/-!
Verification of the `weekly_summary` activity-report pipeline
(`src/weekly_summary/`): a shallow embedding of the data model
(`connectors/base.py`), the date utilities (`utils/date_utils.py`), the
markdown report generator (`report/generator.py`), the summarizer contract
(`summarizer.py`) and the CLI pipeline (`cli.py`), followed by theorems
about the embedded definitions.

Python `datetime` values in this code base are timezone-aware UTC values
with whole fields; we represent one by its proleptic-Gregorian ordinal
(`datetime.toordinal()`, day 1 = 0001-01-01) together with the time of
day.  Comparison of aware UTC datetimes is comparison of the absolute
instant, i.e. of the lexicographic `(ordinal, hour, minute, second,
microsecond)` tuple, which we package as a single integer `stamp`.
-/

namespace WeeklySummary

/-- Model of a timezone-aware UTC `datetime` value. -/
structure DateTime where
  ordinal : Int
  hour : Nat
  minute : Nat
  second : Nat
  microsecond : Nat
deriving DecidableEq

/-- The absolute instant in microseconds; aware datetimes compare by this. -/
def DateTime.stamp (d : DateTime) : Int :=
  (((d.ordinal * 24 + d.hour) * 60 + d.minute) * 60 + d.second) * 1000000
    + d.microsecond

/-- `date.weekday()`: Monday = 0 .. Sunday = 6.  Ordinal 1 (0001-01-01) is
a Monday. -/
def DateTime.weekday (d : DateTime) : Int :=
  (d.ordinal + 6) % 7

/-- Civil date (year, month, day) to Python ordinal (days since 0000-12-31,
proleptic Gregorian).  Standard era-based conversion. -/
def ordinalFromCivil (y : Int) (m d : Nat) : Int :=
  let y2 : Int := if m ≤ 2 then y - 1 else y
  let era : Int := Int.fdiv y2 400
  let yoe : Nat := (y2 - era * 400).toNat
  let mp : Nat := if m > 2 then m - 3 else m + 9
  let doy : Nat := (153 * mp + 2) / 5 + d - 1
  let doe : Nat := yoe * 365 + yoe / 4 - yoe / 100 + doy
  era * 146097 + (doe : Int) - 305

/-- Python ordinal back to the civil date (year, month, day). -/
def civilFromOrdinal (o : Int) : Int × Nat × Nat :=
  let days : Int := o + 305
  let era : Int := Int.fdiv days 146097
  let doe : Nat := (days - era * 146097).toNat
  let yoe : Nat := (doe - doe / 1460 + doe / 36524 - doe / 146096) / 365
  let y : Int := (yoe : Int) + era * 400
  let doy : Nat := doe - (365 * yoe + yoe / 4 - yoe / 100)
  let mp : Nat := (5 * doy + 2) / 153
  let d : Nat := doy - (153 * mp + 2) / 5 + 1
  let m : Nat := if mp < 10 then mp + 3 else mp - 9
  (if m ≤ 2 then y + 1 else y, m, d)

/-- Convenience constructor: a UTC datetime from civil fields. -/
def mkUTC (y : Int) (m d h mi s : Nat) : DateTime :=
  ⟨ordinalFromCivil y m d, h, mi, s, 0⟩

theorem ordinalFromCivil_epoch : ordinalFromCivil 1970 1 1 = 719163 := by decide

theorem ordinalFromCivil_day1 : ordinalFromCivil 1 1 1 = 1 := by decide

theorem civilFromOrdinal_sample : civilFromOrdinal 738896 = (2024, 1, 11) := by
  decide

theorem ordinalFromCivil_sample : ordinalFromCivil 2024 1 11 = 738896 := by
  decide

theorem weekday_sample_monday : (mkUTC 2024 1 8 0 0 0).weekday = 0 := by decide

theorem weekday_sample_thursday : (mkUTC 2024 1 11 0 0 0).weekday = 3 := by
  decide

/-! ## Activity records (`connectors/base.py`)

`metadata` is an open source-specific mapping consumed opportunistically;
none of the verified paths inspect it, so its values are modelled as
strings. -/

/-- `Activity` dataclass of `connectors/base.py`. -/
structure Activity where
  timestamp : DateTime
  title : String
  description : String
  source : String
  activity_type : String
  url : Option String := none
  metadata : List (String × String) := []
deriving DecidableEq

/-- Sort key used by `Activity.__lt__`: the instant of the timestamp. -/
def akey (a : Activity) : Int := a.timestamp.stamp

/-! ## Sorting (`sorted(activities)` in `ReportGenerator.generate`)

The Python `sorted` builtin is the stable ascending sort with respect to
`Activity.__lt__`, i.e. by `akey`.  A stable sort is extensionally unique,
so the stable insertion sort below is the same function. -/

def insertActivity (a : Activity) : List Activity → List Activity
  | [] => [a]
  | b :: bs => if akey a ≤ akey b then a :: b :: bs else b :: insertActivity a bs

def sortActivities (l : List Activity) : List Activity :=
  l.foldr insertActivity []

/-! ## Grouping (insertion-ordered `dict` accumulation)

`ReportGenerator.generate` and `ActivitySummarizer.generate_summary` build
`dict[str, list[Activity]]` maps by appending each record to the entry for
its key, creating the entry at first sight; Python dicts preserve
insertion order. -/

def upsert (k : String) (a : Activity) :
    List (String × List Activity) → List (String × List Activity)
  | [] => [(k, [a])]
  | (k2, l) :: rest =>
      if k2 = k then (k2, l ++ [a]) :: rest else (k2, l) :: upsert k a rest

def groupByKey (key : Activity → String) (l : List Activity) :
    List (String × List Activity) :=
  l.foldl (fun acc a => upsert (key a) a acc) []

/-! ## `strftime` fragments used by the generator -/

def pad2 (n : Nat) : String :=
  if n < 10 then "0" ++ toString n else toString n

/-- `%Y` for the years occurring in reports (zero-padded to four digits). -/
def pad4 (y : Int) : String :=
  let n := y.toNat
  (if n < 10 then "000" else if n < 100 then "00"
   else if n < 1000 then "0" else "") ++ toString n

def monthName : Nat → String
  | 1 => "January" | 2 => "February" | 3 => "March" | 4 => "April"
  | 5 => "May" | 6 => "June" | 7 => "July" | 8 => "August"
  | 9 => "September" | 10 => "October" | 11 => "November" | 12 => "December"
  | _ => ""

def weekdayName : Int → String
  | 0 => "Monday" | 1 => "Tuesday" | 2 => "Wednesday" | 3 => "Thursday"
  | 4 => "Friday" | 5 => "Saturday" | 6 => "Sunday"
  | _ => ""

/-- `strftime("%Y-%m-%d")`. -/
def fmtYMD (dt : DateTime) : String :=
  match civilFromOrdinal dt.ordinal with
  | (y, m, d) => pad4 y ++ "-" ++ pad2 m ++ "-" ++ pad2 d

/-- `strftime("%B %d, %Y")`. -/
def fmtLong (dt : DateTime) : String :=
  match civilFromOrdinal dt.ordinal with
  | (y, m, d) => monthName m ++ " " ++ pad2 d ++ ", " ++ pad4 y

/-- `strftime("%I:%M %p")` (12-hour clock, hour zero-padded). -/
def fmtTime (dt : DateTime) : String :=
  let h12 := if dt.hour % 12 = 0 then 12 else dt.hour % 12
  pad2 h12 ++ ":" ++ pad2 dt.minute ++ " " ++
    (if dt.hour < 12 then "AM" else "PM")

/-- `strftime("%B %d, %Y at %I:%M %p")` used for the generation stamp. -/
def fmtGenerated (dt : DateTime) : String :=
  fmtLong dt ++ " at " ++ fmtTime dt

theorem fmtYMD_sample : fmtYMD (mkUTC 2024 1 1 0 0 0) = "2024-01-01" := by
  decide

theorem fmtLong_sample : fmtLong (mkUTC 2024 1 7 23 59 59) = "January 07, 2024" := by
  decide

theorem fmtTime_sample : fmtTime (mkUTC 2024 1 1 14 5 0) = "02:05 PM" := by
  decide

/-- Python `str.title()` on the ASCII strings used as source names and
activity types: the first letter of every letter run is upper-cased, the
rest lower-cased. -/
def pyTitle (s : String) : String :=
  let step : List Char × Bool → Char → List Char × Bool := fun acc c =>
    if c.isAlpha then ((if acc.2 then c.toLower else c.toUpper) :: acc.1, true)
    else (c :: acc.1, false)
  String.mk (s.data.foldl step ([], false)).1.reverse

theorem pyTitle_sample : pyTitle "github" = "Github" := by decide

theorem pyTitle_sample2 : pyTitle "pr review" = "Pr Review" := by decide

/-! ## `ReportGenerator._format_activity` -/

/-- `_format_activity(activity, include_source)`.  `if activity.url:` is
Python truthiness: a link is rendered only when `url` is present *and*
non-empty.  The description block quotes every non-blank line, stripped,
joined with `"\n  "`. -/
def formatActivity (include_source : Bool) (a : Activity) : String :=
  let time_str := fmtTime a.timestamp
  let parts : List String :=
    ["- **" ++ time_str ++ "**"]
      ++ (if include_source then ["[" ++ a.source ++ "]"] else [])
      ++ [match a.url with
          | some u => if u = "" then a.title
                      else "[" ++ a.title ++ "](" ++ u ++ ")"
          | none => a.title]
  let line := String.intercalate " " parts
  if a.description ≠ "" ∧ a.description.trim ≠ "" then
    let desc_lines := a.description.splitOn "\n"
    let formatted_desc := String.intercalate "\n  "
      ((desc_lines.filter (fun l => l.trim ≠ "")).map (fun l => "> " ++ l.trim))
    if formatted_desc ≠ "" then line ++ "\n  " ++ formatted_desc else line
  else line

/-! ## `ReportGenerator._generate_markdown`

The Python method appends lines to one list and joins with `"\n"`; we
build the same list by concatenating the consecutive blocks.  The
generation stamp `datetime.now()` is ambient wall-clock state and is
passed explicitly as `now`. -/

/-- First-match association lookup: Python `dict` indexing (keys are
unique in a dict). -/
def alookup (k : String) : List (String × String) → Option String
  | [] => none
  | (k2, v) :: rest => if k2 = k then some v else alookup k rest

/-- Hugo front matter block (`lines 96-115` of `generator.py`). -/
def frontMatterLines (all : List Activity)
    (by_source : List (String × List Activity)) (s e : DateTime) :
    List String :=
  ["---",
   "title: \"Weekly Summary: " ++ fmtLong s ++ " - " ++ fmtLong e ++ "\"",
   "date: " ++ fmtYMD s,
   "endDate: " ++ fmtYMD e,
   "totalActivities: " ++ toString all.length,
   "sources:"]
  ++ by_source.map (fun p => "  " ++ p.1 ++ ": " ++ toString p.2.length)
  ++ ["draft: false", "---", ""]

def generatedLine (now : DateTime) : String :=
  "*Generated on " ++ fmtGenerated now ++ "*"

/-- Report header: title line and the wall-clock generation stamp. -/
def headerLines (now s e : DateTime) : List String :=
  ["# Weekly Summary: " ++ fmtLong s ++ " - " ++ fmtLong e, "",
   generatedLine now, ""]

/-- `"github" in summaries and summaries["github"]` guard and subsection. -/
def githubSummaryLines (summaries : List (String × String)) : List String :=
  match alookup "github" summaries with
  | some t => if t = "" then [] else ["### Development Work", "", t, ""]
  | none => []

def slackSummaryLines (summaries : List (String × String)) : List String :=
  match alookup "slack" summaries with
  | some t =>
      if t = "" then []
      else ["### Team Discussions & Collaboration", "", t, ""]
  | none => []

/-- Narrative section (`if summaries:` block).  The heading characters are
exactly the bytes found in `generator.py`. -/
def summarySection (summaries : List (String × String)) : List String :=
  if summaries = [] then []
  else ["## ğŸ“ Summary", ""]
    ++ githubSummaryLines summaries ++ slackSummaryLines summaries
    ++ ["---", ""]

/-- Aggregate statistics section. -/
def statsSection (all : List Activity)
    (by_source : List (String × List Activity)) : List String :=
  ["## ğŸ“Š Activity Summary", "",
   "**Total Activities:** " ++ toString all.length, ""]
  ++ by_source.map (fun p =>
      "- **" ++ pyTitle p.1 ++ ":** " ++ toString p.2.length ++ " activities")
  ++ [""]

/-- One `#### <Activity Type> (<n>)` block. -/
def typeSection (p : String × List Activity) : List String :=
  ["#### " ++ pyTitle (p.1.replace "_" " ") ++ " (" ++ toString p.2.length ++ ")",
   ""]
  ++ p.2.map (formatActivity false) ++ [""]

/-- One `### <Source>` block with its per-type subsections. -/
def sourceSection (p : String × List Activity) : List String :=
  ["### " ++ pyTitle p.1, ""]
  ++ ((groupByKey (fun a => a.activity_type) p.2).map typeSection).flatten

def activitiesSection (by_source : List (String × List Activity)) :
    List String :=
  ["## Activities by Source", ""] ++ (by_source.map sourceSection).flatten

/-! Timeline: `sorted(by_day.items())` sorts the day-key/value pairs by
the `"YYYY-MM-DD"` key (keys are distinct, so only the key matters);
each key is re-parsed with `strptime` for the long day heading. -/

def insertPair (a : String × List Activity) :
    List (String × List Activity) → List (String × List Activity)
  | [] => [a]
  | b :: bs => if a.1 < b.1 then a :: b :: bs else b :: insertPair a bs

def sortPairsByKey (l : List (String × List Activity)) :
    List (String × List Activity) :=
  l.foldr insertPair []

/-- Number of days in a month of the proleptic Gregorian calendar. -/
def daysInMonth (y : Int) (m : Nat) : Nat :=
  if m = 2 then (if y % 4 = 0 ∧ (y % 100 ≠ 0 ∨ y % 400 = 0) then 29 else 28)
  else if m = 4 ∨ m = 6 ∨ m = 9 ∨ m = 11 then 30 else 31

/-- Split a character list at `'-'` (the behaviour of `"…".split("-")` on
the date strings). -/
def splitDash : List Char → List (List Char)
  | [] => [[]]
  | c :: cs =>
      if c = '-' then [] :: splitDash cs
      else match splitDash cs with
        | h :: t => (c :: h) :: t
        | [] => [[c]]

/-- Decimal digit-run parser. -/
def digitsToNat : List Char → Option Nat
  | l => if l ≠ [] ∧ l.all Char.isDigit
         then some (l.foldl (fun n c => n * 10 + (c.toNat - 48)) 0)
         else none

/-- `datetime.strptime(s, "%Y-%m-%d")`: four-digit year, one- or two-digit
month and day, validated; failure (an exception in Python) is `none`. -/
def parseYMD (s : String) : Option (Int × Nat × Nat) :=
  match splitDash s.data with
  | [ys, ms, ds] =>
    match digitsToNat ys, digitsToNat ms, digitsToNat ds with
    | some y, some m, some d =>
        if ys.length = 4 ∧ ms.length ≤ 2 ∧ ds.length ≤ 2
            ∧ 1 ≤ m ∧ m ≤ 12 ∧ 1 ≤ d ∧ d ≤ daysInMonth y m
        then some ((y : Int), m, d) else none
    | _, _, _ => none
  | _ => none

theorem parseYMD_sample : parseYMD "2024-01-07" = some (2024, 1, 7) := by
  decide

/-- `strftime("%A, %B %d, %Y")` of the re-parsed day key.  The keys always
come from `fmtYMD`, so the parse never fails on the reachable inputs. -/
def dayHeading (day : String) : String :=
  match parseYMD day with
  | some (y, m, d) =>
      weekdayName ((ordinalFromCivil y m d + 6) % 7) ++ ", "
        ++ monthName m ++ " " ++ pad2 d ++ ", " ++ pad4 y
  | none => ""

def daySection (p : String × List Activity) : List String :=
  ["### " ++ dayHeading p.1, ""] ++ p.2.map (formatActivity true) ++ [""]

def timelineSection (by_day : List (String × List Activity)) : List String :=
  ["## Timeline", ""] ++ ((sortPairsByKey by_day).map daySection).flatten

/-- The full line list built by `_generate_markdown`. -/
def reportLines (now : DateTime) (all : List Activity)
    (by_source by_day : List (String × List Activity)) (s e : DateTime)
    (summaries : List (String × String)) : List String :=
  frontMatterLines all by_source s e
  ++ headerLines now s e
  ++ summarySection summaries
  ++ statsSection all by_source
  ++ activitiesSection by_source
  ++ timelineSection by_day

/-- `_generate_markdown` returns `"\n".join(lines)`. -/
def generateMarkdown (now : DateTime) (all : List Activity)
    (by_source by_day : List (String × List Activity)) (s e : DateTime)
    (summaries : List (String × String)) : String :=
  String.intercalate "\n" (reportLines now all by_source by_day s e summaries)

/-! ## `ReportGenerator.generate` -/

def activitiesBySource (l : List Activity) : List (String × List Activity) :=
  groupByKey (fun a => a.source) l

def activitiesByDay (l : List Activity) : List (String × List Activity) :=
  groupByKey (fun a => fmtYMD a.timestamp) l

/-- Default output file name derived from the date range. -/
def reportFileName (s e : DateTime) : String :=
  "weekly-summary_" ++ fmtYMD s ++ "_to_" ++ fmtYMD e ++ ".md"

/-- `ReportGenerator.generate`: resolves the file name (`if not
output_file:` — `None` and `""` both fall back to the derived name), sorts,
groups, renders, and writes; the write is modelled by returning the
`(file name, content)` pair. -/
def generateReport (activities : List Activity) (s e : DateTime)
    (output_file : Option String) (summaries : Option (List (String × String)))
    (now : DateTime) : String × String :=
  let file := match output_file with
    | some f => if f = "" then reportFileName s e else f
    | none => reportFileName s e
  let sorted := sortActivities activities
  (file,
   generateMarkdown now sorted (activitiesBySource sorted)
     (activitiesByDay sorted) s e
     (match summaries with | some m => m | none => []))

/-! ## `utils/date_utils.py`

`datetime.now(timezone.utc)` is wall-clock state and is passed explicitly
as `now`.  `timedelta` arithmetic on a UTC datetime shifts the ordinal. -/

/-- `get_last_week_range()`.  `today` is `now` truncated to midnight;
`days_since_monday = (today.weekday() - 0) % 7`, bumped to 7 on Monday;
`last_monday = today - timedelta(days=days_since_monday)` and
`last_sunday = (last_monday + timedelta(days=6)).replace(hour=23,
minute=59, second=59)` (its microsecond is already 0). -/
def get_last_week_range (now : DateTime) : DateTime × DateTime :=
  let today : DateTime := ⟨now.ordinal, 0, 0, 0, 0⟩
  let days_since_monday : Int := (today.weekday - 0) % 7
  let days_since_monday := if days_since_monday = 0 then 7 else days_since_monday
  let last_monday : DateTime := ⟨today.ordinal - days_since_monday, 0, 0, 0, 0⟩
  let last_sunday : DateTime := ⟨last_monday.ordinal + 6, 23, 59, 59, 0⟩
  (last_monday, last_sunday)

/-- `parse_date_range(start_str, end_str)`.  `if start_str and end_str:`
is Python truthiness, so the explicit branch runs only when both strings
are present and non-empty; a `strptime` failure raises, modelled as
`none`. -/
def parse_date_range (start_str end_str : Option String) (now : DateTime) :
    Option (DateTime × DateTime) :=
  match start_str, end_str with
  | some ss, some es =>
    if ss ≠ "" ∧ es ≠ "" then
      match parseYMD ss, parseYMD es with
      | some (ys, ms, ds), some (ye, me, de) =>
          some (⟨ordinalFromCivil ys ms ds, 0, 0, 0, 0⟩,
                ⟨ordinalFromCivil ye me de, 23, 59, 59, 0⟩)
      | _, _ => none
    else some (get_last_week_range now)
  | _, _ => some (get_last_week_range now)

/-! ## `summarizer.py` — `ActivitySummarizer.generate_summary`

`_summarize_source` calls an external language-model API (or returns a
canned mock text); its result is abstracted as the function argument
`summarize`.  `generate_summary` groups by source, summarizes only the
recognized sources `"github"` and `"slack"`, and keeps an entry only when
the summary text is truthy (non-empty). -/

def generate_summary (available : Bool)
    (summarize : String → List Activity → String)
    (activities : List Activity) : List (String × String) :=
  if available then
    (groupByKey (fun a => a.source) activities).foldl
      (fun acc p =>
        if p.1 = "github" ∨ p.1 = "slack" then
          if summarize p.1 p.2 = "" then acc else acc ++ [(p.1, summarize p.1 p.2)]
        else acc) []
  else []

/-! ## `cli.py` — the `generate` command after configuration loading

A connector is modelled by its stable name and the outcome of its
`fetch_activities(start, end)` call: either the fetched records or the
message of the raised exception.  File I/O (the report write) is modelled by
returning the document; the `summaries` step is `generate_summary` with
the external API abstracted as above. -/

structure Connector where
  name : String
  fetch : DateTime → DateTime → Except String (List Activity)

/-- The fetch loop of `generate` (`cli.py` lines 312-321): each
records of each connector are appended; a raised exception is reported and the
loop continues. -/
def collectActivities (cs : List Connector) (s e : DateTime) : List Activity :=
  cs.foldl (fun acc c =>
    match c.fetch s e with
    | .ok l => acc ++ l
    | .error _ => acc) []

/-- Observable outcome of one run: the process exit code and the document
written, if any. -/
structure RunResult where
  exitCode : Nat
  report : Option (String × String)
deriving DecidableEq

/-- One entry of the `sources` mapping of the configuration: its name, its
`enabled` flag (default `True`), and the outcome of constructing and
validating the connector. -/
structure SourceEntry where
  name : String
  enabled : Bool
  init : Except String Connector

/-- The keys of `CONNECTOR_CLASSES`. -/
def connectorClassNames : List String :=
  ["github", "slack", "email", "github_mock", "slack_mock", "email_mock"]

/-- `initialize_connectors(config)`: disabled entries and unknown source
names are skipped with a warning; a failed `validate_config` is reported
and the entry skipped. -/
def initConnectors (entries : List SourceEntry) : List Connector :=
  entries.foldl (fun acc en =>
    if !en.enabled then acc
    else if connectorClassNames.contains en.name then
      match en.init with
      | .ok c => acc ++ [c]
      | .error _ => acc
    else acc) []

/-- The body of the `generate` command after the date range is resolved:
exit 1 when no connector initialized; fetch with per-connector error
tolerance; *return early without writing anything* when no activities were
collected; otherwise summarize (failures yield an empty mapping) and
render.  The report write is pure here, so the write-failure branch
(`return 1`) does not arise. -/
def runGenerate (cs : List Connector) (s e : DateTime)
    (output : Option String) (available : Bool)
    (summarize : String → List Activity → String) (now : DateTime) :
    RunResult :=
  if cs.isEmpty then ⟨1, none⟩
  else
    let all_activities := collectActivities cs s e
    if all_activities.isEmpty then ⟨0, none⟩
    else
      let summaries := generate_summary available summarize all_activities
      ⟨0, some (generateReport all_activities s e output (some summaries) now)⟩

/-- The `generate` command including configuration loading: a load/parse
failure exits 1 before any fetch. -/
def cliGenerate (configLoad : Except String (List SourceEntry))
    (s e : DateTime) (output : Option String) (available : Bool)
    (summarize : String → List Activity → String) (now : DateTime) :
    RunResult :=
  match configLoad with
  | .error _ => ⟨1, none⟩
  | .ok entries => runGenerate (initConnectors entries) s e output
      available summarize now

/-- The connectors that initialized successfully in a run (none when the
configuration failed to load). -/
def activeConnectors (configLoad : Except String (List SourceEntry)) :
    List Connector :=
  match configLoad with
  | .error _ => []
  | .ok entries => initConnectors entries

/-! ## Lemmas about the stable sort -/

theorem insertActivity_perm (a : Activity) :
    ∀ l : List Activity, List.Perm (insertActivity a l) (a :: l)
  | [] => .refl _
  | b :: bs => by
    simp only [insertActivity]
    split
    · exact .refl _
    · exact ((insertActivity_perm a bs).cons b).trans (.swap a b bs)

theorem sortActivities_perm (l : List Activity) :
    List.Perm (sortActivities l) l := by
  induction l with
  | nil => exact .refl _
  | cons x xs ih => exact (insertActivity_perm x _).trans (ih.cons x)

theorem insertActivity_sorted (a : Activity) {l : List Activity}
    (h : l.Pairwise (fun x y => akey x ≤ akey y)) :
    (insertActivity a l).Pairwise (fun x y => akey x ≤ akey y) := by
  induction l with
  | nil => simp [insertActivity]
  | cons b bs ih =>
    rcases List.pairwise_cons.mp h with ⟨hb, hbs⟩
    simp only [insertActivity]
    split
    · rename_i hab
      refine List.Pairwise.cons ?_ h
      intro c hc
      rcases List.mem_cons.mp hc with rfl | hc
      · exact hab
      · exact le_trans hab (hb c hc)
    · rename_i hab
      refine List.Pairwise.cons ?_ (ih hbs)
      intro c hc
      rcases List.mem_cons.mp ((insertActivity_perm a bs).subset hc) with rfl | hc
      · exact le_of_lt (lt_of_not_le hab)
      · exact hb c hc

theorem sortActivities_sorted (l : List Activity) :
    (sortActivities l).Pairwise (fun x y => akey x ≤ akey y) := by
  induction l with
  | nil => simp [sortActivities]
  | cons x xs ih => exact insertActivity_sorted x ih

theorem insertActivity_filter (a : Activity) (t : Int) :
    ∀ l : List Activity,
      (insertActivity a l).filter (fun x => akey x == t)
        = if akey a == t then a :: l.filter (fun x => akey x == t)
          else l.filter (fun x => akey x == t)
  | [] => by
    by_cases h : (akey a == t) <;> simp [insertActivity, List.filter, h]
  | b :: bs => by
    simp only [insertActivity]
    split
    · rename_i hab
      by_cases h : (akey a == t) <;> simp [h, List.filter_cons]
    · rename_i hab
      rw [List.filter_cons, insertActivity_filter a t bs]
      by_cases hat : akey a == t
      · have hba : akey b < akey a := lt_of_not_le hab
        have hbt : (akey b == t) = false := by
          have : akey a = t := by simpa using hat
          simp only [beq_eq_false_iff_ne, ne_eq]
          omega
        simp [hat, hbt, List.filter_cons]
      · simp only [hat, if_false]
        by_cases hbt : akey b == t <;> simp [hbt, List.filter_cons]

theorem sortActivities_filter (l : List Activity) (t : Int) :
    (sortActivities l).filter (fun x => akey x == t)
      = l.filter (fun x => akey x == t) := by
  induction l with
  | nil => rfl
  | cons x xs ih =>
    show (insertActivity x (sortActivities xs)).filter _ = _
    rw [insertActivity_filter, List.filter_cons]
    by_cases hx : akey x == t <;> simp [hx, ih]

/-! ## Lemmas about the insertion-ordered grouping -/

/-- Total size of the value lists of a grouping. -/
def sumLens (g : List (String × List Activity)) : Nat :=
  (g.map fun p => p.2.length).sum

/-- Concatenation of the value lists of a grouping. -/
def flatVals (g : List (String × List Activity)) : List Activity :=
  (g.map fun p => p.2).flatten

theorem upsert_sumLens (k : String) (a : Activity) :
    ∀ acc, sumLens (upsert k a acc) = sumLens acc + 1
  | [] => by simp [upsert, sumLens]
  | (k2, l) :: rest => by
    simp only [upsert]
    split
    · simp [sumLens]; omega
    · have ih := upsert_sumLens k a rest
      simp only [sumLens, List.map_cons, List.sum_cons] at ih ⊢
      omega

theorem groupByKey_foldl_sumLens (key : Activity → String) :
    ∀ (l : List Activity) (acc),
      sumLens (l.foldl (fun acc a => upsert (key a) a acc) acc)
        = sumLens acc + l.length
  | [], acc => by simp
  | x :: xs, acc => by
    simp only [List.foldl_cons, List.length_cons]
    rw [groupByKey_foldl_sumLens key xs, upsert_sumLens]; omega

theorem sumLens_groupByKey (key : Activity → String) (l : List Activity) :
    sumLens (groupByKey key l) = l.length := by
  unfold groupByKey
  rw [groupByKey_foldl_sumLens]
  simp [sumLens]

theorem upsert_flatVals_perm (k : String) (a : Activity) :
    ∀ acc, List.Perm (flatVals (upsert k a acc)) (flatVals acc ++ [a])
  | [] => by simp [upsert, flatVals]
  | (k2, l) :: rest => by
    simp only [upsert]
    split
    · simp only [flatVals, List.map_cons, List.flatten_cons, List.append_assoc]
      exact List.perm_append_comm.append_left l
    · have ih := upsert_flatVals_perm k a rest
      simp only [flatVals, List.map_cons, List.flatten_cons,
        List.append_assoc] at ih ⊢
      exact ih.append_left l

theorem groupByKey_foldl_flatVals (key : Activity → String) :
    ∀ (l : List Activity) (acc),
      List.Perm (flatVals (l.foldl (fun acc a => upsert (key a) a acc) acc))
        (flatVals acc ++ l)
  | [], acc => by simp
  | x :: xs, acc => by
    simp only [List.foldl_cons]
    refine (groupByKey_foldl_flatVals key xs _).trans ?_
    refine ((upsert_flatVals_perm (key x) x acc).append_right xs).trans ?_
    rw [List.append_assoc]
    exact .refl _

theorem flatVals_groupByKey_perm (key : Activity → String) (l : List Activity) :
    List.Perm (flatVals (groupByKey key l)) l := by
  unfold groupByKey
  refine (groupByKey_foldl_flatVals key l []).trans ?_
  simp [flatVals]

theorem upsert_keyed (key : Activity → String) (k : String) (a : Activity)
    (hk : key a = k) :
    ∀ acc, (∀ p ∈ acc, ∀ x ∈ p.2, key x = p.1) →
      ∀ p ∈ upsert k a acc, ∀ x ∈ p.2, key x = p.1
  | [], _ => by
    intro p hp
    simp only [upsert, List.mem_singleton] at hp
    subst hp
    intro x hx
    simp only [List.mem_singleton] at hx
    subst hx; exact hk
  | (k2, l) :: rest, h => by
    intro p hp
    simp only [upsert] at hp
    split at hp
    · rename_i hk2
      rcases List.mem_cons.mp hp with rfl | hp
      · intro x hx
        rcases List.mem_append.mp hx with hx | hx
        · exact h (k2, l) (List.mem_cons_self _ _) x hx
        · simp only [List.mem_singleton] at hx
          subst hx
          simp [hk, hk2]
      · exact h p (List.mem_cons_of_mem _ hp)
    · rcases List.mem_cons.mp hp with rfl | hp
      · exact h (k2, l) (List.mem_cons_self _ _)
      · exact upsert_keyed key k a hk rest
          (fun q hq => h q (List.mem_cons_of_mem _ hq)) p hp

theorem groupByKey_keyed (key : Activity → String) (l : List Activity) :
    ∀ p ∈ groupByKey key l, ∀ x ∈ p.2, key x = p.1 := by
  unfold groupByKey
  suffices h : ∀ (l : List Activity) acc,
      (∀ p ∈ acc, ∀ x ∈ p.2, key x = p.1) →
      ∀ p ∈ l.foldl (fun acc a => upsert (key a) a acc) acc,
        ∀ x ∈ p.2, key x = p.1 by
    exact h l [] (by simp)
  intro l
  induction l with
  | nil => intro acc h; simpa using h
  | cons x xs ih =>
    intro acc h
    simp only [List.foldl_cons]
    exact ih _ (upsert_keyed key (key x) x rfl acc h)

theorem upsert_vals_ne_nil (k : String) (a : Activity) :
    ∀ acc, (∀ p ∈ acc, p.2 ≠ []) → ∀ p ∈ upsert k a acc, p.2 ≠ []
  | [], _ => by
    intro p hp
    simp only [upsert, List.mem_singleton] at hp
    subst hp; simp
  | (k2, l) :: rest, h => by
    intro p hp
    simp only [upsert] at hp
    split at hp
    · rcases List.mem_cons.mp hp with rfl | hp
      · simp
      · exact h p (List.mem_cons_of_mem _ hp)
    · rcases List.mem_cons.mp hp with rfl | hp
      · exact h (k2, l) (List.mem_cons_self _ _)
      · exact upsert_vals_ne_nil k a rest
          (fun q hq => h q (List.mem_cons_of_mem _ hq)) p hp

theorem groupByKey_vals_ne_nil (key : Activity → String) (l : List Activity) :
    ∀ p ∈ groupByKey key l, p.2 ≠ [] := by
  unfold groupByKey
  suffices h : ∀ (l : List Activity) acc, (∀ p ∈ acc, p.2 ≠ []) →
      ∀ p ∈ l.foldl (fun acc a => upsert (key a) a acc) acc, p.2 ≠ [] by
    exact h l [] (by simp)
  intro l
  induction l with
  | nil => intro acc h; simpa using h
  | cons x xs ih =>
    intro acc h
    simp only [List.foldl_cons]
    exact ih _ (upsert_vals_ne_nil (key x) x acc h)

theorem upsert_fst (k : String) (a : Activity) :
    ∀ acc, (upsert k a acc).map Prod.fst
      = if k ∈ acc.map Prod.fst then acc.map Prod.fst
        else acc.map Prod.fst ++ [k]
  | [] => by simp [upsert]
  | (k2, l) :: rest => by
    simp only [upsert]
    split
    · rename_i hk2
      subst hk2
      simp
    · rename_i hk2
      have : k ∈ k2 :: rest.map Prod.fst ↔ k ∈ rest.map Prod.fst := by
        simp only [List.mem_cons]
        constructor
        · rintro (rfl | h)
          · exact absurd rfl hk2
          · exact h
        · exact Or.inr
      rw [List.map_cons, List.map_cons, upsert_fst k a rest]
      by_cases hmem : k ∈ rest.map Prod.fst
      · simp [hmem, this]
      · simp only [hmem, if_false]
        rw [if_neg (by simpa [this] using hmem)]
        simp

theorem upsert_fst_nodup (k : String) (a : Activity) (acc)
    (h : (acc.map Prod.fst).Nodup) : ((upsert k a acc).map Prod.fst).Nodup := by
  rw [upsert_fst]
  split
  · exact h
  · rename_i hmem
    rw [List.nodup_append]
    refine ⟨h, List.nodup_singleton _, ?_⟩
    intro x hx hxk
    rw [List.mem_singleton] at hxk
    subst hxk
    exact hmem hx

theorem groupByKey_fst_nodup (key : Activity → String) (l : List Activity) :
    ((groupByKey key l).map Prod.fst).Nodup := by
  unfold groupByKey
  suffices h : ∀ (l : List Activity) acc, (acc.map Prod.fst).Nodup →
      ((l.foldl (fun acc a => upsert (key a) a acc) acc).map Prod.fst).Nodup by
    exact h l [] (by simp)
  intro l
  induction l with
  | nil => intro acc h; simpa using h
  | cons x xs ih =>
    intro acc h
    simp only [List.foldl_cons]
    exact ih _ (upsert_fst_nodup (key x) x acc h)

/-- In a list of pairs with `Nodup` first components, a first component
determines the pair. -/
theorem eq_of_fst_eq_of_nodup :
    ∀ {g : List (String × List Activity)}, (g.map Prod.fst).Nodup →
      ∀ {p q : String × List Activity}, p ∈ g → q ∈ g → p.1 = q.1 → p = q := by
  intro g
  induction g with
  | nil => intro _ p q hp; cases hp
  | cons r rest ih =>
    intro h p q hp hq hfst
    simp only [List.map_cons, List.nodup_cons] at h
    rcases List.mem_cons.mp hp with hpr | hp
    · rcases List.mem_cons.mp hq with hqr | hq
      · rw [hpr, hqr]
      · exfalso
        have h1 : r.1 = q.1 := by rw [← hpr]; exact hfst
        have h2 : r.1 ∈ rest.map Prod.fst := by
          rw [h1]; exact List.mem_map_of_mem Prod.fst hq
        exact h.1 h2
    · rcases List.mem_cons.mp hq with hqr | hq
      · exfalso
        have h1 : r.1 = p.1 := by rw [← hqr]; exact hfst.symm
        have h2 : r.1 ∈ rest.map Prod.fst := by
          rw [h1]; exact List.mem_map_of_mem Prod.fst hp
        exact h.1 h2
      · exact ih h.2 hp hq hfst

/-- Every record of the input lies in some group of the grouping. -/
theorem mem_group_of_mem (key : Activity → String) {l : List Activity}
    {a : Activity} (ha : a ∈ l) : ∃ p ∈ groupByKey key l, a ∈ p.2 := by
  have := (flatVals_groupByKey_perm key l).mem_iff.mpr ha
  simp only [flatVals, List.mem_flatten, List.mem_map] at this
  obtain ⟨vals, ⟨p, hp, rfl⟩, hav⟩ := this
  exact ⟨p, hp, hav⟩

/-- Every record of the input lies in *exactly one* group. -/
theorem existsUnique_group (key : Activity → String) {l : List Activity}
    {a : Activity} (ha : a ∈ l) :
    ∃! p, p ∈ groupByKey key l ∧ a ∈ p.2 := by
  obtain ⟨p, hp, hap⟩ := mem_group_of_mem key ha
  refine ⟨p, ⟨hp, hap⟩, ?_⟩
  rintro q ⟨hq, haq⟩
  have h1 : key a = q.1 := groupByKey_keyed key l q hq a haq
  have h2 : key a = p.1 := groupByKey_keyed key l p hp a hap
  exact eq_of_fst_eq_of_nodup (groupByKey_fst_nodup key l) hq hp (h1 ▸ h2)

/-! ## Concrete fixtures used by witnesses and counterexamples -/

/-- A sample in-range activity (mirrors the test fixture). -/
def actG : Activity :=
  ⟨mkUTC 2024 1 1 10 0 0, "Commit to repo", "Fix bug", "github", "commit",
   some "https://github.com/test/repo/commit/123", []⟩

def rangeStart : DateTime := mkUTC 2024 1 1 0 0 0

def rangeEnd : DateTime := ⟨(mkUTC 2024 1 7 0 0 0).ordinal, 23, 59, 59, 0⟩

/-- `start ≤ timestamp ≤ end` on instants. -/
def inRange (s e : DateTime) (a : Activity) : Prop :=
  s.stamp ≤ a.timestamp.stamp ∧ a.timestamp.stamp ≤ e.stamp

instance (s e : DateTime) (a : Activity) : Decidable (inRange s e a) :=
  inferInstanceAs
    (Decidable (s.stamp ≤ a.timestamp.stamp ∧ a.timestamp.stamp ≤ e.stamp))

/-! ## C5 — stable total sort by timestamp -/

/-- C5: for every list of Activity records, the sort performed before
rendering is ascending in timestamp, is a permutation of the input, and is
stable: for each timestamp value, the records carrying it appear in the
output exactly in their input order. -/
theorem sortActivities_sorted_stable_perm (l : List Activity) :
    (sortActivities l).Pairwise (fun x y => akey x ≤ akey y)
    ∧ List.Perm (sortActivities l) l
    ∧ ∀ t : Int, (sortActivities l).filter (fun x => akey x == t)
        = l.filter (fun x => akey x == t) :=
  ⟨sortActivities_sorted l, sortActivities_perm l, sortActivities_filter l⟩

/-! ## C6 — the two groupings partition the record set -/

/-- C6: for every list of Activity records, the grouping by source and the
grouping by calendar day built by `ReportGenerator.generate` each
partition the record set exactly: group sizes sum to the total count, and
every record lies in exactly one source group and exactly one day
group. -/
theorem groupings_partition (l : List Activity) :
    sumLens (activitiesBySource (sortActivities l)) = l.length
    ∧ sumLens (activitiesByDay (sortActivities l)) = l.length
    ∧ (∀ a ∈ l, ∃! p, p ∈ activitiesBySource (sortActivities l) ∧ a ∈ p.2)
    ∧ (∀ a ∈ l, ∃! p, p ∈ activitiesByDay (sortActivities l) ∧ a ∈ p.2) := by
  have hlen := (sortActivities_perm l).length_eq
  refine ⟨?_, ?_, ?_, ?_⟩
  · rw [activitiesBySource, sumLens_groupByKey, hlen]
  · rw [activitiesByDay, sumLens_groupByKey, hlen]
  · intro a ha
    exact existsUnique_group _ ((sortActivities_perm l).mem_iff.mpr ha)
  · intro a ha
    exact existsUnique_group _ ((sortActivities_perm l).mem_iff.mpr ha)

/-- Witness for C6 at a concrete record. -/
theorem groupings_partition_witness :
    ∃! p, p ∈ activitiesBySource (sortActivities [actG]) ∧ actG ∈ p.2 :=
  (groupings_partition [actG]).2.2.1 actG (List.mem_singleton_self actG)

/-! ## C8 — summarizer mapping keys -/

theorem summary_foldl_mem (summarize : String → List Activity → String) :
    ∀ (groups : List (String × List Activity)) (acc : List (String × String))
      (q : String × String),
      q ∈ groups.foldl (fun acc p =>
        if p.1 = "github" ∨ p.1 = "slack" then
          if summarize p.1 p.2 = "" then acc
          else acc ++ [(p.1, summarize p.1 p.2)]
        else acc) acc →
      q ∈ acc ∨ ∃ g ∈ groups, q.1 = g.1 ∧ (g.1 = "github" ∨ g.1 = "slack")
  | [], _, q => fun h => Or.inl h
  | g :: gs, acc, q => fun h => by
    simp only [List.foldl_cons] at h
    rcases summary_foldl_mem summarize gs _ q h with hacc | ⟨g2, hg2, hq⟩
    · by_cases hrec : g.1 = "github" ∨ g.1 = "slack"
      · rw [if_pos hrec] at hacc
        by_cases hemp : summarize g.1 g.2 = ""
        · rw [if_pos hemp] at hacc; exact Or.inl hacc
        · rw [if_neg hemp] at hacc
          rcases List.mem_append.mp hacc with h1 | h1
          · exact Or.inl h1
          · rw [List.mem_singleton] at h1
            subst h1
            exact Or.inr ⟨g, List.mem_cons_self _ _, rfl, hrec⟩
      · rw [if_neg hrec] at hacc; exact Or.inl hacc
    · exact Or.inr ⟨g2, List.mem_cons_of_mem _ hg2, hq⟩

/-- C8: for every input, every entry of the mapping returned by
`generate_summary` has a key in the recognized set (github or slack), and
that key is the source of at least one input record; the mapping is total
(absence of an entry is not an error), whatever the summarization call
returns. -/
theorem generate_summary_keys (available : Bool)
    (summarize : String → List Activity → String)
    (activities : List Activity) :
    ∀ p ∈ generate_summary available summarize activities,
      (p.1 = "github" ∨ p.1 = "slack")
        ∧ ∃ a ∈ activities, a.source = p.1 := by
  intro q hq
  unfold generate_summary at hq
  by_cases hav : available
  · rw [if_pos hav] at hq
    rcases summary_foldl_mem summarize _ [] q hq with h | ⟨g, hg, hqg, hrec⟩
    · cases h
    · refine ⟨by rw [hqg]; exact hrec, ?_⟩
      have hne := groupByKey_vals_ne_nil (fun a => a.source) activities g hg
      obtain ⟨a, ha⟩ := List.exists_mem_of_ne_nil g.2 hne
      have hsrc := groupByKey_keyed (fun a => a.source) activities g hg a ha
      have hmem : a ∈ activities := by
        refine (flatVals_groupByKey_perm (fun a => a.source) activities).subset ?_
        simp only [flatVals, List.mem_flatten, List.mem_map]
        exact ⟨g.2, ⟨g, hg, rfl⟩, ha⟩
      exact ⟨a, hmem, by simp only at hsrc; rw [hsrc, hqg]⟩
  · rw [if_neg hav] at hq
    cases hq

/-- Witness for C8 at a concrete record and summarization oracle. -/
theorem generate_summary_keys_witness :
    (("github", "text").1 = "github" ∨ ("github", "text").1 = "slack")
    ∧ ∃ a ∈ [actG], a.source = ("github", "text").1 :=
  generate_summary_keys true (fun _ _ => "text") [actG] ("github", "text")
    (by decide)

/-! ## C9 — empty-string url renders like an absent url -/

/-- C9: an Activity whose `url` is the empty string renders exactly like
one whose `url` is absent: `if activity.url:` is false for both, so the
bare title is shown with no link syntax. -/
theorem formatActivity_empty_url (ts : DateTime)
    (title description source ty : String) (md : List (String × String))
    (inc : Bool) :
    formatActivity inc ⟨ts, title, description, source, ty, some "", md⟩
      = formatActivity inc ⟨ts, title, description, source, ty, none, md⟩ :=
  rfl

/-! ## C7 — fetch errors are tolerated; fatal only without connectors -/

theorem collect_foldl (s e : DateTime) :
    ∀ (cs : List Connector) (acc : List Activity),
      cs.foldl (fun acc c =>
        match c.fetch s e with
        | .ok l => acc ++ l
        | .error _ => acc) acc
      = acc ++ (cs.map fun c =>
          match c.fetch s e with
          | .ok l => l
          | .error _ => []).flatten
  | [], acc => by simp
  | c :: cs, acc => by
    simp only [List.foldl_cons, List.map_cons, List.flatten_cons]
    cases hc : c.fetch s e with
    | ok l =>
      rw [collect_foldl s e cs (acc ++ l), List.append_assoc]
    | error m =>
      rw [collect_foldl s e cs acc]
      simp

theorem collectActivities_eq (cs : List Connector) (s e : DateTime) :
    collectActivities cs s e
      = (cs.map fun c =>
          match c.fetch s e with
          | .ok l => l
          | .error _ => []).flatten := by
  unfold collectActivities
  rw [collect_foldl]
  simp

/-- C7: a connector whose fetch raises contributes exactly the empty
record list while the records of the other connectors are kept, and a run (after any
configuration-load outcome) exits non-zero exactly when zero connectors
initialized successfully. -/
theorem fetch_errors_tolerated_and_fatal_iff_no_connectors
    (configLoad : Except String (List SourceEntry)) (s e : DateTime)
    (output : Option String) (available : Bool)
    (summarize : String → List Activity → String) (now : DateTime) :
    ((cliGenerate configLoad s e output available summarize now).exitCode ≠ 0
      ↔ activeConnectors configLoad = [])
    ∧ ∀ cs : List Connector, collectActivities cs s e
        = (cs.map fun c =>
            match c.fetch s e with
            | .ok l => l
            | .error _ => []).flatten := by
  refine ⟨?_, fun cs => collectActivities_eq cs s e⟩
  cases configLoad with
  | error m => simp [cliGenerate, activeConnectors]
  | ok entries =>
    simp only [cliGenerate, activeConnectors, runGenerate]
    by_cases hcs : (initConnectors entries).isEmpty
    · simp [hcs, List.isEmpty_iff.mp hcs]
    · have hne : initConnectors entries ≠ [] := by
        simpa [List.isEmpty_iff] using hcs
      rw [if_neg hcs]
      by_cases hall :
          (collectActivities (initConnectors entries) s e).isEmpty <;>
        simp [hall, hne]

/-- Witness for C7: an empty source configuration makes the run fatal. -/
theorem fetch_errors_witness :
    (cliGenerate (Except.ok []) (mkUTC 2024 1 1 0 0 0)
        (mkUTC 2024 1 7 23 59 59) none false (fun _ _ => "")
        (mkUTC 2024 1 8 9 0 0)).exitCode ≠ 0 :=
  (fetch_errors_tolerated_and_fatal_iff_no_connectors (Except.ok [])
    (mkUTC 2024 1 1 0 0 0) (mkUTC 2024 1 7 23 59 59) none false
    (fun _ _ => "") (mkUTC 2024 1 8 9 0 0)).1.mpr rfl

/-! ## C3 — range containment of aggregated records -/

def outOfRangeActivity : Activity :=
  ⟨mkUTC 2024 2 15 12 0 0, "Late", "", "github", "commit", none, []⟩

def outOfRangeConnector : Connector :=
  ⟨"github", fun _ _ => .ok [outOfRangeActivity]⟩

/-- C3 counterexample: a record dated 2024-02-15 returned by an adapter
for the range 2024-01-01..2024-01-07 flows through the fetch loop and the
sort into the aggregated output unchanged — nothing in the pipeline
rejects it. -/
theorem out_of_range_record_included :
    outOfRangeActivity
        ∈ sortActivities (collectActivities [outOfRangeConnector] rangeStart rangeEnd)
    ∧ ¬ inRange rangeStart rangeEnd outOfRangeActivity := by
  constructor
  · decide
  · decide

/-- C3 (amended): the aggregation never invents out-of-range records —
whenever every record delivered by the fetch loop lies within
`[start, end]` (the adapter contract), every record of the sorted
aggregated output lies within `[start, end]`. -/
theorem sorted_in_range_of_input_in_range (cs : List Connector)
    (s e : DateTime)
    (h : ∀ a ∈ collectActivities cs s e, inRange s e a) :
    ∀ a ∈ sortActivities (collectActivities cs s e), inRange s e a :=
  fun a ha => h a ((sortActivities_perm _).subset ha)

def inRangeConnector : Connector := ⟨"github", fun _ _ => .ok [actG]⟩

/-- Witness for the amended C3 at a concrete in-range record. -/
theorem sorted_in_range_witness : inRange rangeStart rangeEnd actG :=
  sorted_in_range_of_input_in_range [inRangeConnector] rangeStart rangeEnd
    (by decide) actG (by decide)

/-! ## C10 — narrative heading without recognized summary keys -/

/-- C10: whenever the summaries mapping is non-empty but carries neither a
github entry with non-empty text nor a slack entry with non-empty text,
the document still contains the narrative heading followed immediately by
its trailing divider, with no subsection in between. -/
theorem narrative_heading_without_recognized_keys
    (summaries : List (String × String)) (hne : summaries ≠ [])
    (hgh : ∀ t, alookup "github" summaries = some t → t = "")
    (hsl : ∀ t, alookup "slack" summaries = some t → t = "")
    (now : DateTime) (all : List Activity)
    (by_source by_day : List (String × List Activity)) (s e : DateTime) :
    ∃ p q, reportLines now all by_source by_day s e summaries
      = p ++ ["## ğŸ“ Summary", "", "---", ""] ++ q := by
  have hg : githubSummaryLines summaries = [] := by
    unfold githubSummaryLines
    cases hl : alookup "github" summaries with
    | none => rfl
    | some t => rw [hgh t hl]; simp
  have hs : slackSummaryLines summaries = [] := by
    unfold slackSummaryLines
    cases hl : alookup "slack" summaries with
    | none => rfl
    | some t => rw [hsl t hl]; simp
  refine ⟨frontMatterLines all by_source s e ++ headerLines now s e,
    statsSection all by_source ++ activitiesSection by_source
      ++ timelineSection by_day, ?_⟩
  unfold reportLines summarySection
  rw [if_neg hne, hg, hs]
  simp

/-- Witness for C10 with a mapping holding only an unrecognized key. -/
theorem narrative_heading_witness :
    ∃ p q, reportLines (mkUTC 2024 1 8 9 0 0) [] [] [] rangeStart rangeEnd
        [("email", "x")]
      = p ++ ["## ğŸ“ Summary", "", "---", ""] ++ q :=
  narrative_heading_without_recognized_keys [("email", "x")] (by decide)
    (fun t h => by simp [alookup] at h) (fun t h => by simp [alookup] at h)
    (mkUTC 2024 1 8 9 0 0) [] [] [] rangeStart rangeEnd

/-! ## C2 — empty fetched activity set -/

def emptyConnector : Connector := ⟨"github_mock", fun _ _ => .ok []⟩

/-- C2 counterexample: with one successfully initialized connector and an
empty fetched activity set, the run exits 0 but writes *no* document
(`cli.py` returns before `ReportGenerator.generate` is reached), so no
document reporting zero activities exists. -/
theorem empty_run_writes_no_document :
    runGenerate [emptyConnector] rangeStart rangeEnd none true
      (fun _ _ => "") (mkUTC 2024 1 8 9 0 0) = ⟨0, none⟩ := by
  decide

/-- C2 (amended): when at least one connector initialized and the fetched
set is empty, the pipeline exits 0 *without writing any document*; the
renderer itself, applied directly to an empty record list (as its test
suite does), produces a document with `**Total Activities:** 0`, no
per-source lines and an empty Timeline section. -/
theorem empty_run_exits_zero_without_document (cs : List Connector)
    (s e : DateTime) (output : Option String) (available : Bool)
    (summarize : String → List Activity → String) (now now2 : DateTime)
    (hcs : cs ≠ []) (hempty : collectActivities cs s e = []) :
    runGenerate cs s e output available summarize now = ⟨0, none⟩
    ∧ reportLines now2 [] [] [] rangeStart rangeEnd []
        = ["---",
           "title: \"Weekly Summary: January 01, 2024 - January 07, 2024\"",
           "date: 2024-01-01",
           "endDate: 2024-01-07",
           "totalActivities: 0",
           "sources:",
           "draft: false", "---", "",
           "# Weekly Summary: January 01, 2024 - January 07, 2024", "",
           generatedLine now2, "",
           "## ğŸ“Š Activity Summary", "",
           "**Total Activities:** 0", "", "",
           "## Activities by Source", "",
           "## Timeline", ""] := by
  constructor
  · unfold runGenerate
    rw [if_neg (by simpa [List.isEmpty_iff] using hcs)]
    simp [hempty]
  · rfl

/-- Witness for the amended C2. -/
theorem empty_run_witness :
    runGenerate [emptyConnector] rangeStart rangeEnd none false
      (fun _ _ => "") (mkUTC 2024 1 8 9 0 0) = ⟨0, none⟩ :=
  (empty_run_exits_zero_without_document [emptyConnector] rangeStart rangeEnd
    none false (fun _ _ => "") (mkUTC 2024 1 8 9 0 0) (mkUTC 2024 1 8 9 0 0)
    (List.cons_ne_nil _ _) (by decide)).1

/-! ## C1 — determinism of rendering -/

set_option maxRecDepth 20000 in
/-- C1 counterexample: rendering the same (records, summaries, date range)
at two different wall-clock instants produces different document content:
the `*Generated on …*` line embeds `datetime.now()`. -/
theorem render_depends_on_wall_clock :
    generateMarkdown (mkUTC 2024 1 8 10 0 0) [] [] [] rangeStart rangeEnd []
      ≠ generateMarkdown (mkUTC 2024 1 8 11 0 0) [] [] [] rangeStart rangeEnd [] := by
  decide

/-- C1 (amended): rendering is deterministic in (records, summaries, date
range) *except for* the single generation-timestamp line: two renderings
of the same input at different wall-clock instants agree on everything
before and after that one line. -/
theorem reportLines_differ_only_in_generated_line (now1 now2 : DateTime)
    (all : List Activity) (by_source by_day : List (String × List Activity))
    (s e : DateTime) (summaries : List (String × String)) :
    ∃ p q,
      reportLines now1 all by_source by_day s e summaries
          = p ++ [generatedLine now1] ++ q
      ∧ reportLines now2 all by_source by_day s e summaries
          = p ++ [generatedLine now2] ++ q := by
  refine ⟨frontMatterLines all by_source s e
      ++ ["# Weekly Summary: " ++ fmtLong s ++ " - " ++ fmtLong e, ""],
    [""] ++ summarySection summaries ++ statsSection all by_source
      ++ activitiesSection by_source ++ timelineSection by_day, ?_, ?_⟩ <;>
  · unfold reportLines headerLines
    simp

/-! ## C4 — default date range -/

/-- C4: evaluating `get_last_week_range` at a Thursday (2024-01-11 12:00
UTC): the function returns the *current in-progress* week Monday
2024-01-08 .. Sunday 2024-01-14, whose Sunday end lies strictly in the
future of `now` — not the most recently completed Monday–Sunday week
(2024-01-01 .. 2024-01-07), contradicting its own docstring ("the last
complete week"). -/
theorem get_last_week_range_on_thursday :
    get_last_week_range (mkUTC 2024 1 11 12 0 0)
      = (mkUTC 2024 1 8 0 0 0, ⟨ordinalFromCivil 2024 1 14, 23, 59, 59, 0⟩)
    ∧ (get_last_week_range (mkUTC 2024 1 11 12 0 0)).2.ordinal
        > (mkUTC 2024 1 11 12 0 0).ordinal := by
  decide

end WeeklySummary
